import Mathlib

/- Shallow embedding of the motion feature extractor (src/libvmaf/src/feature/motion.c)
   and of the model loader (src/libvmaf/src/model.c) of this repository.

   Modelling conventions:
   * C `float` / `double` values are modelled as exact rationals (ℚ); the claims under
     study concern which pixels are summed, normalisation factors, comparison and
     control flow, not rounding.
   * an image plane is a function from (float-unit) linear indices to pixel values;
   * external collaborators whose sources are not part of this repository snapshot
     (`read_noref_frame`, `offset_image`, `convolution_f32_c`, `aligned_malloc`,
     `svm_load_model`, `vmaf_unpickle_model`) are parameters / oracles of the
     embedding;
   * the two C loops of the N² motion-gap search are embedded as fuel-indexed
     recursion, so that the non-termination behaviour of the original loops is
     observable (`none` = the given fuel was exhausted). -/

/-! ## Motion estimator (motion.c) -/

/-- Absolute pixel difference at one row-major cell, exactly as read by
`vmaf_image_selected_cells` (motion.c:85-90): row `i = cell / width`, column
`j = cell % width` (C `int` division and modulus truncate towards zero, hence
`Int.tdiv` / `Int.tmod`), pixels read at `i * stride + j` in each plane. -/
def cellAbsDiff (img1 img2 : Int → ℚ) (width s1 s2 cell : Int) : ℚ :=
  |img1 (Int.tdiv cell width * s1 + Int.tmod cell width)
    - img2 (Int.tdiv cell width * s2 + Int.tmod cell width)|

/-- Embedding of `vmaf_image_selected_cells` (motion.c:82-94): accumulate the absolute
pixel difference over the `array_len` listed cells (here: the list `cells`), then
divide by the full pixel count `width * height`. -/
def vmaf_image_selected_cells (img1 img2 : Int → ℚ) (width height s1 s2 : Int)
    (cells : List Int) : ℚ :=
  (cells.foldl (fun accum cell => accum + cellAbsDiff img1 img2 width s1 s2 cell) 0)
    / ((width * height : Int) : ℚ)

/-- Embedding of `vmaf_image_sad_c` (motion.c:51-80): mean absolute difference over the
full `width × height` plane, accumulated per row and then across rows, divided by
`width * height`.  The `pass == 0` per-cell `printf` diagnostics are output only and do
not affect the returned value, so they are not part of the embedding. -/
def vmaf_image_sad_c (img1 img2 : Int → ℚ) (width height s1 s2 : Int) : ℚ :=
  ((List.range height.toNat).foldl (fun accum i =>
      accum + (List.range width.toNat).foldl (fun accum_line j =>
        accum_line + |img1 ((i : Int) * s1 + (j : Int))
          - img2 ((i : Int) * s2 + (j : Int))|) 0) 0)
    / ((width * height : Int) : ℚ)

/-- Embedding of `compute_motion` (motion.c:109-135).  Strides are in bytes; a stride
that is not a multiple of `sizeof(float) = 4` makes the function fail (C: print and
`goto fail`, return 1; modelled as `none`).  With `cells_to_compare == NULL` the
full-plane SAD is computed, otherwise the selected-cells variant over the first `pass`
entries of the array — the C call site passes `pass` as the `array_len` argument. -/
def compute_motion (ref dis : Int → ℚ) (w h ref_stride dis_stride : Int) (pass : Int)
    (cells_to_compare : Option (List Int)) : Option ℚ :=
  if Int.tmod ref_stride 4 ≠ 0 then none
  else if Int.tmod dis_stride 4 ≠ 0 then none
  else match cells_to_compare with
    | none => some (vmaf_image_sad_c ref dis w h
        (Int.tdiv ref_stride 4) (Int.tdiv dis_stride 4))
    | some cells => some (vmaf_image_selected_cells ref dis w h
        (Int.tdiv ref_stride 4) (Int.tdiv dis_stride 4) (cells.take pass.toNat))

/-- Embedding of `populate_cells_to_compare` (motion.c:427-445).  The file system is
modelled by `fileTokens`: `none` when `fopen` fails (the C function prints the
"file not opened" diagnostic and returns 0, leaving the caller's zero-initialised
array untouched); `some ts` for the comma-separated integers parsed from the file's
first line, which overwrite the front of the array.  Returns the pair
`(valid_coord_index, cells_to_compare)`. -/
def populate_cells_to_compare (fileTokens : Option (List Int)) (size : Nat) :
    Int × List Int :=
  match fileTokens with
  | none => (0, List.replicate size 0)
  | some ts => ((ts.length : Int), ts ++ List.replicate (size - ts.length) 0)

/-- Specification-side definition of the restricted-cell score, following the spec's
words (§4.2): the sum over the listed cells of the absolute pixel difference, divided
by the full pixel count `width * height` (not by the number of listed cells). -/
def restrictedScoreSpec (img1 img2 : Int → ℚ) (width height s1 s2 : Int)
    (cells : List Int) : ℚ :=
  (cells.map (cellAbsDiff img1 img2 width s1 s2)).sum / ((width * height : Int) : ℚ)

theorem foldl_add_map_sum {γ : Type} (f : γ → ℚ) (c : ℚ) (l : List γ) :
    l.foldl (fun a x => a + f x) c = c + (l.map f).sum := by
  induction l generalizing c with
  | nil => simp
  | cons x xs ih => simp [ih, add_assoc]

/-- C3: for every pair of equally-shaped planes, every non-empty ordered list of cell
indices, and every width and height, the restricted-cell score equals the sum over the
listed cells of the absolute pixel difference divided by the full pixel count
`width * height` (not by the number of listed cells). -/
theorem selected_cells_normalized_by_full_pixel_count
    (img1 img2 : Int → ℚ) (width height s1 s2 : Int) (cells : List Int)
    (hne : cells ≠ []) :
    vmaf_image_selected_cells img1 img2 width height s1 s2 cells
      = restrictedScoreSpec img1 img2 width height s1 s2 cells := by
  unfold vmaf_image_selected_cells restrictedScoreSpec
  rw [foldl_add_map_sum, zero_add]

/-- Witness for C3 at a concrete input: two 2×2 planes, cell list `[0, 3]`. -/
theorem selected_cells_normalized_by_full_pixel_count_witness :
    vmaf_image_selected_cells (fun _ => 0) (fun i => i) 2 2 2 2 [0, 3]
      = restrictedScoreSpec (fun _ => 0) (fun i => i) 2 2 2 2 [0, 3] :=
  selected_cells_normalized_by_full_pixel_count (fun _ => 0) (fun i => i) 2 2 2 2
    [0, 3] (by simp)

/-- C7 (code defect): when the motion-cell restriction file cannot be opened,
`populate_cells_to_compare` returns `valid_coord_index = 0` and the gap-search call
`compute_motion(b_blur, c_blur, ..., valid_coord_index, cells_to_compare)`
(motion.c:368) therefore scores every frame pair over the empty cell set, yielding
0.0 — not the full-plane SAD that the unrestricted computation produces on the same
planes (here 1). -/
theorem missing_cell_file_scores_zero_not_full_plane :
    (populate_cells_to_compare none 4).1 = 0
    ∧ compute_motion (fun _ => 0) (fun _ => 1) 2 2 8 8
        (populate_cells_to_compare none 4).1
        (some (populate_cells_to_compare none 4).2) = some 0
    ∧ compute_motion (fun _ => 0) (fun _ => 1) 2 2 8 8 0 none = some 1 := by
  have h84 : Int.tmod 8 4 = 0 := rfl
  have hr2 : List.range 2 = [0, 1] := rfl
  refine ⟨rfl, ?_, ?_⟩
  · simp [compute_motion, h84, populate_cells_to_compare, vmaf_image_selected_cells]
  · have hR : List.range (Int.toNat 2) = [0, 1] := rfl
    simp only [compute_motion, h84, ne_eq, not_true_eq_false, if_false,
      vmaf_image_sad_c, hR, List.foldl_cons, List.foldl_nil, Option.some_inj]
    norm_num

/-! ## Buffer lifecycle of `motion` (motion.c:137-425)

`motion` allocates six equally-sized planes up front (ref, prev_blur, blur, next_ref,
next_blur, temp) and, when a motion-map file name is configured, four more for the
gap search (c_frame, c_blur, b_frame, b_blur).  Every allocation failure jumps to
`fail_or_end`, which frees exactly the six phase-1 buffers (`aligned_free` is a no-op
on NULL); the four phase-2 buffers are freed only on the success path
(motion.c:410-413). -/

inductive MotionBuf
  | refBuf | prevBlurBuf | blurBuf | nextRefBuf | nextBlurBuf | tempBuf
  | cFrameBuf | cBlurBuf | bFrameBuf | bBlurBuf
deriving DecidableEq

/-- Allocation order of the six buffers of the sequential phase (motion.c:167-196). -/
def phase1Bufs : List MotionBuf :=
  [.refBuf, .prevBlurBuf, .blurBuf, .nextRefBuf, .nextBlurBuf, .tempBuf]

/-- Allocation order of the four gap-search buffers (motion.c:296-315). -/
def phase2Bufs : List MotionBuf :=
  [.cFrameBuf, .cBlurBuf, .bFrameBuf, .bBlurBuf]

/-- Allocate buffers in order until the first `aligned_malloc` failure; returns the
allocated prefix and whether all succeeded. -/
def allocUntilFail (ok : MotionBuf → Bool) : List MotionBuf → List MotionBuf × Bool
  | [] => ([], true)
  | b :: rest =>
    if ok b then
      let r := allocUntilFail ok rest
      (b :: r.1, r.2)
    else ([], false)

/-- Resource behaviour of one invocation of `motion`: which plane buffers it
allocates and which it frees before returning, as a function of the allocator
oracle `ok` and of whether a motion-map file name is configured (which enables the
gap-search phase).  Mirrors the `goto fail_or_end` control flow of motion.c: any
allocation failure jumps to `fail_or_end` (motion.c:416-422), which frees only the
six phase-1 buffers; the four phase-2 buffers are freed only by the success-path
cleanup (motion.c:409-413). -/
def motionBuffers (ok : MotionBuf → Bool) (hasMotionMap : Bool) :
    List MotionBuf × List MotionBuf :=
  let r1 := allocUntilFail ok phase1Bufs
  if ¬ r1.2 then (r1.1, r1.1)
  else if ¬ hasMotionMap then (r1.1, r1.1)
  else
    let r2 := allocUntilFail ok phase2Bufs
    if ¬ r2.2 then (r1.1 ++ r2.1, r1.1)
    else (r1.1 ++ r2.1, [.bBlurBuf, .bFrameBuf, .cFrameBuf, .cBlurBuf] ++ r1.1)

/-- Allocator oracle for C4's failing input: every `aligned_malloc` succeeds except
the one for `c_blur_buf` (motion.c:301). -/
def c4FailingAlloc : MotionBuf → Bool := fun b => decide (b ≠ MotionBuf.cBlurBuf)

/-- C4 (code defect): if the allocation of `c_blur_buf` fails, control jumps to
`fail_or_end`, which frees only the six phase-1 buffers — the already-allocated
`c_frame_buf` is never released, so an allocated buffer remains unreleased,
contradicting the claim that no partial leak is possible regardless of which
allocation failed. -/
theorem motion_gap_alloc_failure_leaks_buffer :
    MotionBuf.cFrameBuf ∈ (motionBuffers c4FailingAlloc true).1
    ∧ MotionBuf.cFrameBuf ∉ (motionBuffers c4FailingAlloc true).2
    ∧ (motionBuffers c4FailingAlloc true).1 =
        [.refBuf, .prevBlurBuf, .blurBuf, .nextRefBuf, .nextBlurBuf, .tempBuf,
         .cFrameBuf]
    ∧ (motionBuffers c4FailingAlloc true).2 =
        [.refBuf, .prevBlurBuf, .blurBuf, .nextRefBuf, .nextBlurBuf, .tempBuf] := by
  decide

/-! ## Model loader (model.c) -/

/-- Resources allocated by `vmaf_model_load_from_path` (model.c:9-48):
the `VmafModel` struct, the copied path and name strings, the temporary
`svm_path` string, and the svm predictor loaded by `svm_load_model`. -/
inductive ModelRes
  | modelStruct | pathStr | nameStr | svmPathStr | svmPredictor
deriving DecidableEq

/-- Oracle for the fallible steps of `vmaf_model_load_from_path`: the four `malloc`
calls, `svm_load_model` (non-NULL iff the predictor resource at `path + ".model"`
exists and loads), and `vmaf_unpickle_model` (0 iff manifest deserialization
succeeds). -/
structure LoadOracle where
  mallocModel : Bool
  mallocPath : Bool
  mallocName : Bool
  mallocSvmPath : Bool
  svmLoadOk : Bool
  unpickleOk : Bool
deriving DecidableEq

/-- Outcome of `vmaf_model_load_from_path`: the C return value (0 on success,
`-ENOMEM = -12` on every failure path), the resources allocated during the call, and
the resources freed again before returning.  On success the caller owns everything
except `svm_path`, which is freed at model.c:32. -/
structure LoadOutcome where
  ret : Int
  allocated : List ModelRes
  freed : List ModelRes
deriving DecidableEq

/-- Embedding of `vmaf_model_load_from_path` (model.c:9-48), faithful to its
`goto`-chain rollback: `fail` returns `-ENOMEM` directly; `free_m`, `free_path`,
`free_name`, `free_svm` fall through the frees in reverse allocation order.
`svm_path` is always freed right after `svm_load_model` (model.c:32), before the
NULL check. -/
def vmaf_model_load_from_path (o : LoadOracle) : LoadOutcome :=
  if ¬ o.mallocModel then ⟨-12, [], []⟩
  else if ¬ o.mallocPath then ⟨-12, [.modelStruct], [.modelStruct]⟩
  else if ¬ o.mallocName then
    ⟨-12, [.modelStruct, .pathStr], [.pathStr, .modelStruct]⟩
  else if ¬ o.mallocSvmPath then
    ⟨-12, [.modelStruct, .pathStr, .nameStr], [.nameStr, .pathStr, .modelStruct]⟩
  else if ¬ o.svmLoadOk then
    ⟨-12, [.modelStruct, .pathStr, .nameStr, .svmPathStr],
      [.svmPathStr, .nameStr, .pathStr, .modelStruct]⟩
  else if ¬ o.unpickleOk then
    ⟨-12, [.modelStruct, .pathStr, .nameStr, .svmPathStr, .svmPredictor],
      [.svmPathStr, .svmPredictor, .nameStr, .pathStr, .modelStruct]⟩
  else ⟨0, [.modelStruct, .pathStr, .nameStr, .svmPathStr, .svmPredictor],
    [.svmPathStr]⟩

/-- Oracle for a configuration whose predictor resource does not exist: all
allocations succeed, `svm_load_model` returns NULL. -/
def loadOracleMissingResource : LoadOracle :=
  ⟨true, true, true, true, false, true⟩

/-- Oracle for an allocation failure on the very first `malloc`. -/
def loadOracleOutOfMemory : LoadOracle :=
  ⟨false, true, true, true, true, true⟩

/-- Counterexample to C8 as stated: loading with a nonexistent predictor resource
does not fail with a distinct typed `ResourceNotFound` error — it returns `-ENOMEM`
(-12), the very same error value produced when the first allocation fails, so the
caller cannot distinguish a missing resource from an out-of-memory condition. -/
theorem model_load_missing_resource_returns_enomem :
    (vmaf_model_load_from_path loadOracleMissingResource).ret = -12
    ∧ (vmaf_model_load_from_path loadOracleOutOfMemory).ret = -12 := by
  decide

/-- C8 as amended: if `svm_load_model` fails (nonexistent predictor resource) or
`vmaf_unpickle_model` fails (manifest deserialization error), the load returns the
error `-ENOMEM` and every resource allocated during the call — in particular the
already-loaded svm predictor and the copied path and name in the deserialization
case — has been freed before returning, leaving no partially-constructed asset. -/
theorem model_load_failure_returns_enomem_and_frees_all (o : LoadOracle)
    (h : o.svmLoadOk = false ∨ o.unpickleOk = false) :
    (vmaf_model_load_from_path o).ret = -12
    ∧ ∀ r ∈ (vmaf_model_load_from_path o).allocated,
        r ∈ (vmaf_model_load_from_path o).freed := by
  rcases o with ⟨m1, m2, m3, m4, s, u⟩
  revert h
  cases m1 <;> cases m2 <;> cases m3 <;> cases m4 <;> cases s <;> cases u <;> decide

/-- Witness for C8's amended theorem at the concrete missing-resource oracle. -/
theorem model_load_failure_returns_enomem_and_frees_all_witness :
    (vmaf_model_load_from_path loadOracleMissingResource).ret = -12 :=
  (model_load_failure_returns_enomem_and_frees_all loadOracleMissingResource
    (Or.inl rfl)).1

/-! ## The N² motion-gap search (motion.c:282-414)

The search phase runs when a motion-map file name is configured.  Frames are read by
random-access seek, offset by `OPT_RANGE_PIXEL_OFFSET`, blurred with the 5-tap
filter, and scored with `compute_motion` against the current outer (`b`) frame's
blurred plane.  The frame reader, pixel offset, convolution and scoring kernel are
external to this phase (the latter is `compute_motion` applied to the populated cell
array) and enter the embedding as parameters over an abstract plane type `α`. -/

/-- Seek offset passed to `read_noref_frame` for frame index `i`
(motion.c:350,363): `(int)(i * w * h * FRAME_INDEX_OFFSET)` with
`FRAME_INDEX_OFFSET = 1.5`; the double-to-int conversion truncates towards zero. -/
def seekOffset (w h i : Int) : Int := Int.tdiv (3 * (i * w * h)) 2

/-- `(int)(MIN_GAP * fps)` with `MIN_GAP = 1.5` (motion.c:321); C's double-to-int
truncation agrees with the floor for the nonnegative frame rates in use. -/
def minGapFrames (fps : ℚ) : Int := ⌊(3 / 2 : ℚ) * fps⌋

/-- `(int)(MAX_GAP * fps)` with `MAX_GAP = 15` (motion.c:322). -/
def maxGapFrames (fps : ℚ) : Int := ⌊(15 : ℚ) * fps⌋

/-- Parameters of the gap-search phase.  `read` models `read_noref_frame` at a given
seek offset (`none` = nonzero return: read/seek failure or end of stream);
`offsetImage` models `offset_image` with `OPT_RANGE_PIXEL_OFFSET`; `blur` models
`convolution_f32_c` with `FILTER_5`; `score` models the `compute_motion` call of
motion.c:368 on two blurred planes (with the populated cell array, it is
`vmaf_image_selected_cells` on the planes' pixels).  `frameCount` is
`global_frm_idx`, the number of frames counted by the sequential pass. -/
structure GapParams (α : Type) where
  mode : String
  frameCount : Int
  minFrameGap : Int
  maxFrameGap : Int
  w : Int
  h : Int
  read : Int → Option α
  offsetImage : α → α
  blur : α → α
  score : α → α → ℚ

/-- State of the gap search: the running minimum and its index pair
(motion.c:343-345), the current contents of `b_frame_buf` and `c_frame_buf`
(uninitialised at entry, preserved when a read fails), the trace `visited` of
`compute_motion` calls — one `(b_idx, c_idx, score)` triple per call — and the
trace `events` of `printf("%f,%d,%d\n", min, ...)` lines emitted on strict
improvement (motion.c:379,387). -/
structure GapState (α : Type) where
  min : ℚ
  minLowerIdx : Int
  minUpperIdx : Int
  bFrame : α
  cFrame : α
  visited : List (Int × Int × ℚ)
  events : List (ℚ × Int × Int)
deriving DecidableEq

/-- The update guarded by `min == -1.0 || score < min` (motion.c:373,383): record the
new best triple and print it. -/
def updateMin {α : Type} (st : GapState α) (b c : Int) (s : ℚ) : GapState α :=
  if st.min = -1 ∨ s < st.min then
    { st with
      min := s
      minLowerIdx := b
      minUpperIdx := c
      events := st.events ++ [(s, b, c)] }
  else st

/-- Upper bound of the inner loop (motion.c:356-360): `c_end = global_frm_idx`,
lowered to `b + max_frame_gap` when that is smaller. -/
def cEndOf {α : Type} (P : GapParams α) (b : Int) : Int :=
  if b + P.maxFrameGap < P.frameCount then b + P.maxFrameGap else P.frameCount

/-- New contents of `c_frame_buf` (resp. `b_frame_buf`) after the unchecked
`read_noref_frame` call and `offset_image` (motion.c:350-352, 363-365): the read's
return value is ignored, so on failure the stale buffer contents are offset again. -/
def readOffset {α : Type} (P : GapParams α) (i : Int) (cur : α) : α :=
  P.offsetImage ((P.read (seekOffset P.w P.h i)).getD cur)

/-- Inner `while (c_idx < c_end)` loop (motion.c:361-392), fuel-indexed.  Each
iteration reads and blurs frame `c_idx`, calls `compute_motion` (recorded in
`visited`), and then dispatches on the mode string: `"ALL_FRAMES"` updates the
minimum and advances by 4, `"ALL_LOCAL_FRAMES"` updates and advances by 1, and any
other mode string advances neither — the loop then repeats at the same `c_idx`.
`none` means the fuel ran out before the loop exited. -/
def innerLoop {α : Type} (P : GapParams α) (bBlur : α) (b cEnd : Int) :
    Nat → Int → GapState α → Option (GapState α)
  | fuel, c, st =>
    if c < cEnd then
      match fuel with
      | 0 => none
      | f + 1 =>
        let cf := readOffset P c st.cFrame
        let s := P.score bBlur (P.blur cf)
        let st1 : GapState α :=
          { st with cFrame := cf, visited := st.visited ++ [(b, c, s)] }
        if P.mode = "ALL_FRAMES" then
          innerLoop P bBlur b cEnd f (c + 4) (updateMin st1 b c s)
        else if P.mode = "ALL_LOCAL_FRAMES" then
          innerLoop P bBlur b cEnd f (c + 1) (updateMin st1 b c s)
        else
          innerLoop P bBlur b cEnd f c st1
    else some st

/-- Outer `while (b_idx < b_end)` loop (motion.c:348-399), fuel-indexed.  Each
iteration reads, offsets and blurs frame `b_idx` into `b_blur_buf`, runs the inner
loop from `b_idx + min_frame_gap`, and advances `b_idx` by 4 in `"ALL_FRAMES"` mode
and by 1 otherwise (motion.c:393-397). -/
def outerLoop {α : Type} (P : GapParams α) (bEnd : Int) :
    Nat → Int → GapState α → Option (GapState α)
  | fuel, b, st =>
    if b < bEnd then
      match fuel with
      | 0 => none
      | f + 1 =>
        let bf := readOffset P b st.bFrame
        let bBlur := P.blur bf
        match innerLoop P bBlur b (cEndOf P b) f (b + P.minFrameGap)
            { st with bFrame := bf } with
        | none => none
        | some st1 =>
          outerLoop P bEnd f (if P.mode = "ALL_FRAMES" then b + 4 else b + 1) st1
    else some st

/-- The whole gap-search phase (motion.c:321-400): `b_end = frameCount -
min_frame_gap`, minimum initialised to the sentinel `-1.0` with the whole-video
index pair `(0, frameCount - 1)` (motion.c:343-345), both loops run from `b_idx =
0`.  `bFrame0` and `cFrame0` are the (uninitialised) contents of the freshly
allocated `b_frame_buf` and `c_frame_buf`. -/
def gapSearch {α : Type} (P : GapParams α) (fuel : Nat) (bFrame0 cFrame0 : α) :
    Option (GapState α) :=
  outerLoop P (P.frameCount - P.minFrameGap) fuel 0
    { min := -1, minLowerIdx := 0, minUpperIdx := P.frameCount - 1,
      bFrame := bFrame0, cFrame := cFrame0, visited := [], events := [] }

/-- Projection of the search state onto the observables that the final
`printf("%f,%d,%d\n", min, min_lower_idx, min_upper_idx)` (motion.c:400) and the
traces expose. -/
def searchSummary {α : Type} (st : GapState α) :
    ℚ × Int × Int × List (Int × Int × ℚ) × List (ℚ × Int × Int) :=
  (st.min, st.minLowerIdx, st.minUpperIdx, st.visited, st.events)

/-- Projection of the visit trace onto the scanned index pairs. -/
def visitedPairs {α : Type} (st : GapState α) : List (Int × Int) :=
  st.visited.map (fun v => (v.1, v.2.1))

@[simp] theorem updateMin_visited {α : Type} (st : GapState α) (b c : Int) (s : ℚ) :
    (updateMin st b c s).visited = st.visited := by
  unfold updateMin; split <;> rfl

@[simp] theorem updateMin_bFrame {α : Type} (st : GapState α) (b c : Int) (s : ℚ) :
    (updateMin st b c s).bFrame = st.bFrame := by
  unfold updateMin; split <;> rfl

@[simp] theorem updateMin_cFrame {α : Type} (st : GapState α) (b c : Int) (s : ℚ) :
    (updateMin st b c s).cFrame = st.cFrame := by
  unfold updateMin; split <;> rfl

theorem innerLoop_exit {α : Type} (P : GapParams α) (bBlur : α) (b cEnd : Int)
    (fuel : Nat) (c : Int) (st : GapState α) (h : ¬ c < cEnd) :
    innerLoop P bBlur b cEnd fuel c st = some st := by
  rw [innerLoop.eq_def]; simp [h]

theorem inner_visited_mono {α : Type} (P : GapParams α) (bBlur : α) (b cEnd : Int) :
    ∀ (fuel : Nat) (c : Int) (st st' : GapState α),
      innerLoop P bBlur b cEnd fuel c st = some st' →
      ∃ t, st'.visited = st.visited ++ t := by
  intro fuel
  induction fuel with
  | zero =>
    intro c st st' h
    rw [innerLoop] at h
    by_cases hc : c < cEnd
    · simp [hc] at h
    · simp only [if_neg hc, Option.some_inj] at h
      exact ⟨[], by simp [← h]⟩
  | succ f ih =>
    intro c st st' h
    rw [innerLoop] at h
    by_cases hc : c < cEnd
    · simp only [if_pos hc] at h
      split_ifs at h with h1 h2
      · obtain ⟨t, ht⟩ := ih _ _ _ h
        refine ⟨(b, c, P.score bBlur (P.blur (readOffset P c st.cFrame))) :: t, ?_⟩
        simp [ht]
      · obtain ⟨t, ht⟩ := ih _ _ _ h
        refine ⟨(b, c, P.score bBlur (P.blur (readOffset P c st.cFrame))) :: t, ?_⟩
        simp [ht]
      · obtain ⟨t, ht⟩ := ih _ _ _ h
        refine ⟨(b, c, P.score bBlur (P.blur (readOffset P c st.cFrame))) :: t, ?_⟩
        simp [ht]
    · simp only [if_neg hc, Option.some_inj] at h
      exact ⟨[], by simp [← h]⟩

theorem outer_visited_mono {α : Type} (P : GapParams α) (bEnd : Int) :
    ∀ (fuel : Nat) (b : Int) (st st' : GapState α),
      outerLoop P bEnd fuel b st = some st' →
      ∃ t, st'.visited = st.visited ++ t := by
  intro fuel
  induction fuel with
  | zero =>
    intro b st st' h
    rw [outerLoop] at h
    by_cases hb : b < bEnd
    · simp [hb] at h
    · simp only [if_neg hb, Option.some_inj] at h
      exact ⟨[], by simp [← h]⟩
  | succ f ih =>
    intro b st st' h
    rw [outerLoop] at h
    by_cases hb : b < bEnd
    · simp only [if_pos hb] at h
      cases hin : innerLoop P (P.blur (readOffset P b st.bFrame)) b (cEndOf P b) f
          (b + P.minFrameGap) { st with bFrame := readOffset P b st.bFrame } with
      | none => rw [hin] at h; simp at h
      | some st1 =>
        rw [hin] at h
        simp only at h
        obtain ⟨t1, ht1⟩ := inner_visited_mono P _ b (cEndOf P b) f _ _ _ hin
        obtain ⟨t2, ht2⟩ := ih _ _ _ h
        exact ⟨t1 ++ t2, by simp [ht2, ht1]⟩
    · simp only [if_neg hb, Option.some_inj] at h
      exact ⟨[], by simp [← h]⟩

theorem inner_visited_sound {α : Type} (P : GapParams α) (bBlur : α) (b cEnd : Int) :
    ∀ (fuel : Nat) (c : Int) (st st' : GapState α),
      b + P.minFrameGap ≤ c →
      innerLoop P bBlur b cEnd fuel c st = some st' →
      ∀ v ∈ st'.visited,
        v ∈ st.visited ∨ (v.1 = b ∧ b + P.minFrameGap ≤ v.2.1 ∧ v.2.1 < cEnd) := by
  intro fuel
  induction fuel with
  | zero =>
    intro c st st' hc h
    rw [innerLoop.eq_def] at h
    by_cases hlt : c < cEnd
    · simp [hlt] at h
    · simp only [if_neg hlt, Option.some_inj] at h
      subst h; exact fun v hv => Or.inl hv
  | succ f ih =>
    intro c st st' hc h
    rw [innerLoop.eq_def] at h
    by_cases hlt : c < cEnd
    · simp only [if_pos hlt] at h
      split_ifs at h with h1 h2
      · intro v hv
        rcases ih _ _ _ (by omega) h v hv with hin | hnew
        · simp only [updateMin_visited, List.mem_append, List.mem_singleton] at hin
          rcases hin with hin | rfl
          · exact Or.inl hin
          · exact Or.inr ⟨rfl, hc, hlt⟩
        · exact Or.inr hnew
      · intro v hv
        rcases ih _ _ _ (by omega) h v hv with hin | hnew
        · simp only [updateMin_visited, List.mem_append, List.mem_singleton] at hin
          rcases hin with hin | rfl
          · exact Or.inl hin
          · exact Or.inr ⟨rfl, hc, hlt⟩
        · exact Or.inr hnew
      · intro v hv
        rcases ih _ _ _ hc h v hv with hin | hnew
        · simp only [List.mem_append, List.mem_singleton] at hin
          rcases hin with hin | rfl
          · exact Or.inl hin
          · exact Or.inr ⟨rfl, hc, hlt⟩
        · exact Or.inr hnew
    · simp only [if_neg hlt, Option.some_inj] at h
      subst h; exact fun v hv => Or.inl hv

theorem outer_visited_sound {α : Type} (P : GapParams α) (bEnd : Int) :
    ∀ (fuel : Nat) (b : Int) (st st' : GapState α),
      0 ≤ b →
      outerLoop P bEnd fuel b st = some st' →
      ∀ v ∈ st'.visited,
        v ∈ st.visited
        ∨ (0 ≤ v.1 ∧ v.1 < bEnd ∧ v.1 + P.minFrameGap ≤ v.2.1
            ∧ v.2.1 < cEndOf P v.1) := by
  intro fuel
  induction fuel with
  | zero =>
    intro b st st' h0 h
    rw [outerLoop.eq_def] at h
    by_cases hb : b < bEnd
    · simp [hb] at h
    · simp only [if_neg hb, Option.some_inj] at h
      subst h; exact fun v hv => Or.inl hv
  | succ f ih =>
    intro b st st' h0 h
    rw [outerLoop.eq_def] at h
    by_cases hb : b < bEnd
    · simp only [if_pos hb] at h
      cases hin : innerLoop P (P.blur (readOffset P b st.bFrame)) b (cEndOf P b) f
          (b + P.minFrameGap) { st with bFrame := readOffset P b st.bFrame } with
      | none => rw [hin] at h; simp at h
      | some st1 =>
        rw [hin] at h
        simp only at h
        intro v hv
        have hb' : (0 : Int) ≤ if P.mode = "ALL_FRAMES" then b + 4 else b + 1 := by
          split <;> omega
        rcases ih _ _ _ hb' h v hv with hin1 | hshape
        · rcases inner_visited_sound P _ b (cEndOf P b) f _ _ _ le_rfl hin v hin1
            with hin2 | ⟨hvb, hlo, hhi⟩
          · exact Or.inl hin2
          · exact Or.inr ⟨by omega, by omega, by rw [hvb]; exact hlo,
              by rw [hvb]; exact hhi⟩
        · exact Or.inr hshape
    · simp only [if_neg hb, Option.some_inj] at h
      subst h; exact fun v hv => Or.inl hv

/-- C1: in the motion-gap search over `frameCount` frames, with `min_gap_frames =
(int)(1.5 * fps)` and `max_gap_frames = (int)(15 * fps)`, every candidate pair
`(b, c)` that is scored (appears in the `compute_motion` trace) satisfies `0 ≤ b`,
`b < frameCount - min_gap_frames`, `b + min_gap_frames ≤ c`, `min_gap_frames ≤ c - b`,
`c - b < max_gap_frames`, and `c < frameCount`. -/
theorem motion_gap_candidates_within_window {α : Type} (P : GapParams α) (fps : ℚ)
    (hmin : P.minFrameGap = minGapFrames fps) (hmax : P.maxFrameGap = maxGapFrames fps)
    (fuel : Nat) (b0 c0 : α) (st : GapState α)
    (h : gapSearch P fuel b0 c0 = some st) :
    ∀ v ∈ st.visited,
      0 ≤ v.1 ∧ v.1 < P.frameCount - minGapFrames fps
      ∧ v.1 + minGapFrames fps ≤ v.2.1
      ∧ minGapFrames fps ≤ v.2.1 - v.1 ∧ v.2.1 - v.1 < maxGapFrames fps
      ∧ v.2.1 < P.frameCount := by
  intro v hv
  unfold gapSearch at h
  rcases outer_visited_sound P _ fuel 0 _ st le_rfl h v hv with hin | ⟨h0, h1, h2, h3⟩
  · simp at hin
  · have hce1 : v.2.1 < P.frameCount := by
      have h4 := h3; unfold cEndOf at h4; split at h4 <;> omega
    have hce2 : v.2.1 < v.1 + P.maxFrameGap := by
      have h4 := h3; unfold cEndOf at h4; split at h4 <;> omega
    rw [hmin] at h1 h2
    rw [hmax] at hce2
    exact ⟨h0, h1, h2, by omega, by omega, hce1⟩

/-- Concrete gap-search instance for witnesses: fps = 1 (so min_gap_frames = 1,
max_gap_frames = 15), three frames, exhaustive mode; frames are their seek offsets
and the score is the absolute difference of the (blurred) planes. -/
def w1Params : GapParams Int :=
  { mode := "ALL_LOCAL_FRAMES"
    frameCount := 3
    minFrameGap := 1
    maxFrameGap := 15
    w := 1
    h := 1
    read := fun o => some o
    offsetImage := fun x => x
    blur := fun x => x
    score := fun x y => (((x - y).natAbs : ℕ) : ℚ) }

/-- Final state of `gapSearch w1Params 9 0 0`. -/
def w1State : GapState Int :=
  { min := 1
    minLowerIdx := 0
    minUpperIdx := 1
    bFrame := 1
    cFrame := 3
    visited := [(0, 1, 1), (0, 2, 3), (1, 2, 2)]
    events := [(1, 0, 1)] }

/-- Witness for C1: the theorem applied to the concrete run `gapSearch w1Params 9`,
at the visited candidate pair `(0, 1)`. -/
theorem motion_gap_candidates_within_window_witness :
    0 ≤ (0 : Int) ∧ (0 : Int) < w1Params.frameCount - minGapFrames 1
    ∧ 0 + minGapFrames 1 ≤ (1 : Int)
    ∧ minGapFrames 1 ≤ (1 : Int) - 0 ∧ (1 : Int) - 0 < maxGapFrames 1
    ∧ (1 : Int) < w1Params.frameCount :=
  motion_gap_candidates_within_window w1Params 1
    (by norm_num [minGapFrames, w1Params])
    (by norm_num [maxGapFrames, w1Params])
    9 0 0 w1State (by decide) (0, 1, 1) (by decide)

theorem find?_append_of_none {γ : Type} (p : γ → Bool) {l1 l2 : List γ}
    (h : l1.find? p = none) : (l1 ++ l2).find? p = l2.find? p := by
  rw [List.find?_append, h]; rfl

theorem find?_append_of_some {γ : Type} (p : γ → Bool) {l1 l2 : List γ} {a : γ}
    (h : l1.find? p = some a) : (l1 ++ l2).find? p = some a := by
  rw [List.find?_append, h]; rfl

/-- Invariant of the running minimum of the gap search: either no candidate has been
scored yet and `min` still holds the `-1.0` sentinel, or `min` is the least score in
the `compute_motion` trace, `(min_lower_idx, min_upper_idx, min)` is the *first*
visit attaining it, the emitted improvement lines have strictly decreasing scores,
and the last emitted line carries the current best triple. -/
def searchBestInv {α : Type} (st : GapState α) : Prop :=
  (st.min = -1 ∧ st.visited = [] ∧ st.events = [])
  ∨ (0 ≤ st.min
     ∧ (∀ v ∈ st.visited, st.min ≤ v.2.2)
     ∧ st.visited.find? (fun v => decide (v.2.2 ≤ st.min))
         = some (st.minLowerIdx, st.minUpperIdx, st.min)
     ∧ List.Chain' (fun e f => f.1 < e.1) st.events
     ∧ (∀ e ∈ st.events, st.min ≤ e.1)
     ∧ st.events.getLast? = some (st.min, st.minLowerIdx, st.minUpperIdx))

theorem searchBestInv_visitUpdate {α : Type} (st : GapState α) (b c : Int) (s : ℚ)
    (cf : α) (hs : 0 ≤ s) (hinv : searchBestInv st) :
    searchBestInv (updateMin
      { st with cFrame := cf, visited := st.visited ++ [(b, c, s)] } b c s) := by
  unfold updateMin
  rcases hinv with ⟨hm, hv, he⟩ | ⟨h0, hlb, hfind, hchain, hev, hlast⟩
  · rw [if_pos (Or.inl hm)]
    refine Or.inr ?_
    refine ⟨hs, ?_, ?_, ?_, ?_, ?_⟩
    · intro v hv'
      simp only [hv, List.nil_append, List.mem_singleton] at hv'
      subst hv'; exact le_refl s
    · simp [hv, List.find?]
    · simp [he]
    · intro e he'
      simp only [he, List.nil_append, List.mem_singleton] at he'
      subst he'; exact le_refl s
    · simp [he]
  · have hm1 : ¬ st.min = -1 := by intro hx; rw [hx] at h0; norm_num at h0
    by_cases hcond : st.min = -1 ∨ s < st.min
    · have hlt : s < st.min := hcond.resolve_left hm1
      rw [if_pos hcond]
      refine Or.inr ⟨hs, ?_, ?_, ?_, ?_, ?_⟩
      · intro v hv'
        simp only [List.mem_append, List.mem_singleton] at hv'
        rcases hv' with hv' | rfl
        · exact le_of_lt (lt_of_lt_of_le hlt (hlb v hv'))
        · exact le_refl s
      · have hnone : st.visited.find? (fun v => decide (v.2.2 ≤ s)) = none := by
          rw [List.find?_eq_none]
          intro v hv'
          simp only [decide_eq_true_eq]
          exact fun hle => absurd (lt_of_lt_of_le hlt (hlb v hv'))
            (not_lt.mpr hle)
        rw [find?_append_of_none _ hnone]
        simp [List.find?]
      · rw [List.chain'_append]
        refine ⟨hchain, List.chain'_singleton _, ?_⟩
        intro x hx y hy
        rw [hlast] at hx
        simp only [Option.mem_def, Option.some_inj] at hx
        simp only [List.head?_cons, Option.mem_def, Option.some_inj] at hy
        subst hx; subst hy
        exact hlt
      · intro e he'
        simp only [List.mem_append, List.mem_singleton] at he'
        rcases he' with he' | rfl
        · exact le_of_lt (lt_of_lt_of_le hlt (hev e he'))
        · exact le_refl s
      · exact List.getLast?_concat _
    · rw [if_neg hcond]
      push_neg at hcond
      refine Or.inr ⟨h0, ?_, find?_append_of_some _ hfind, hchain, hev, hlast⟩
      intro v hv'
      simp only [List.mem_append, List.mem_singleton] at hv'
      rcases hv' with hv' | rfl
      · exact hlb v hv'
      · exact hcond.2

theorem inner_searchBestInv {α : Type} (P : GapParams α) (bBlur : α) (b cEnd : Int)
    (hmode : P.mode = "ALL_FRAMES" ∨ P.mode = "ALL_LOCAL_FRAMES")
    (hs : ∀ x y, 0 ≤ P.score x y) :
    ∀ (fuel : Nat) (c : Int) (st st' : GapState α),
      innerLoop P bBlur b cEnd fuel c st = some st' →
      searchBestInv st → searchBestInv st' := by
  intro fuel
  induction fuel with
  | zero =>
    intro c st st' h hinv
    rw [innerLoop.eq_def] at h
    by_cases hlt : c < cEnd
    · simp [hlt] at h
    · simp only [if_neg hlt, Option.some_inj] at h
      subst h; exact hinv
  | succ f ih =>
    intro c st st' h hinv
    rw [innerLoop.eq_def] at h
    by_cases hlt : c < cEnd
    · simp only [if_pos hlt] at h
      split_ifs at h with h1 h2
      · exact ih _ _ _ h (searchBestInv_visitUpdate st b c _ _ (hs _ _) hinv)
      · exact ih _ _ _ h (searchBestInv_visitUpdate st b c _ _ (hs _ _) hinv)
      · rcases hmode with hm | hm
        · exact absurd hm h1
        · exact absurd hm h2
    · simp only [if_neg hlt, Option.some_inj] at h
      subst h; exact hinv

theorem outer_searchBestInv {α : Type} (P : GapParams α) (bEnd : Int)
    (hmode : P.mode = "ALL_FRAMES" ∨ P.mode = "ALL_LOCAL_FRAMES")
    (hs : ∀ x y, 0 ≤ P.score x y) :
    ∀ (fuel : Nat) (b : Int) (st st' : GapState α),
      outerLoop P bEnd fuel b st = some st' →
      searchBestInv st → searchBestInv st' := by
  intro fuel
  induction fuel with
  | zero =>
    intro b st st' h hinv
    rw [outerLoop.eq_def] at h
    by_cases hb : b < bEnd
    · simp [hb] at h
    · simp only [if_neg hb, Option.some_inj] at h
      subst h; exact hinv
  | succ f ih =>
    intro b st st' h hinv
    rw [outerLoop.eq_def] at h
    by_cases hb : b < bEnd
    · simp only [if_pos hb] at h
      cases hin : innerLoop P (P.blur (readOffset P b st.bFrame)) b (cEndOf P b) f
          (b + P.minFrameGap) { st with bFrame := readOffset P b st.bFrame } with
      | none => rw [hin] at h; simp at h
      | some st1 =>
        rw [hin] at h
        simp only at h
        have hinv1 : searchBestInv { st with bFrame := readOffset P b st.bFrame } :=
          hinv
        exact ih _ _ _ h (inner_searchBestInv P _ b (cEndOf P b) hmode hs f _ _ _
          hin hinv1)
    · simp only [if_neg hb, Option.some_inj] at h
      subst h; exact hinv

/-- C2: in a gap search in either valid mode, with nonnegative scores (as produced by
the SAD kernels), the best triple is only ever replaced on strict improvement: the
scores of the emitted improvement lines are strictly decreasing (hence the recorded
best score is monotonically non-increasing across updates); an empty visit trace
leaves the sentinel; and on a non-empty trace the final best score is a lower bound
of all visited scores while `(min_lower_idx, min_upper_idx)` is the *earliest* visit
in iteration order attaining it — later equal-score candidates never replace it. -/
theorem motion_gap_best_update_policy {α : Type} (P : GapParams α)
    (hmode : P.mode = "ALL_FRAMES" ∨ P.mode = "ALL_LOCAL_FRAMES")
    (hs : ∀ x y, 0 ≤ P.score x y)
    (fuel : Nat) (b0 c0 : α) (st : GapState α)
    (h : gapSearch P fuel b0 c0 = some st) :
    List.Chain' (fun e f => f.1 < e.1) st.events
    ∧ (st.visited = [] → st.min = -1 ∧ st.events = [])
    ∧ (st.visited ≠ [] →
        (∀ v ∈ st.visited, st.min ≤ v.2.2)
        ∧ st.visited.find? (fun v => decide (v.2.2 ≤ st.min))
            = some (st.minLowerIdx, st.minUpperIdx, st.min)) := by
  unfold gapSearch at h
  have hinv := outer_searchBestInv P _ hmode hs fuel 0 _ st h
    (Or.inl ⟨rfl, rfl, rfl⟩)
  rcases hinv with ⟨hm, hv, he⟩ | ⟨h0, hlb, hfind, hchain, hev, hlast⟩
  · exact ⟨by rw [he]; exact List.chain'_nil, fun _ => ⟨hm, he⟩,
      fun hne => absurd hv hne⟩
  · refine ⟨hchain, ?_, fun _ => ⟨hlb, hfind⟩⟩
    intro hemp
    rw [hemp] at hfind
    simp [List.find?] at hfind

/-- Witness for C2: in the concrete run `gapSearch w1Params 9`, the final best triple
is the first visit attaining the minimal score. -/
theorem motion_gap_best_update_policy_witness :
    w1State.visited.find? (fun v => decide (v.2.2 ≤ w1State.min))
      = some (w1State.minLowerIdx, w1State.minUpperIdx, w1State.min) :=
  ((motion_gap_best_update_policy w1Params (Or.inr rfl)
      (fun x y => Nat.cast_nonneg _) 9 0 0 w1State (by decide)).2.2 (by decide)).2

theorem outer_no_candidates {α : Type} (P : GapParams α) (bEnd : Int)
    (hinner : ∀ b, cEndOf P b ≤ b + P.minFrameGap) :
    ∀ (fuel : Nat) (b : Int) (st : GapState α),
      (bEnd - b).toNat ≤ fuel →
      ∃ st', outerLoop P bEnd fuel b st = some st'
        ∧ searchSummary st' = searchSummary st := by
  intro fuel
  induction fuel with
  | zero =>
    intro b st hf
    have hb : ¬ b < bEnd := by omega
    rw [outerLoop.eq_def]
    exact ⟨st, by simp [hb], rfl⟩
  | succ f ih =>
    intro b st hf
    by_cases hb : b < bEnd
    · rw [outerLoop.eq_def]
      simp only [if_pos hb]
      rw [innerLoop_exit P _ b (cEndOf P b) f (b + P.minFrameGap) _
        (by have := hinner b; omega)]
      simp only
      have hb' : (bEnd - (if P.mode = "ALL_FRAMES" then b + 4 else b + 1)).toNat
          ≤ f := by split <;> omega
      obtain ⟨st', hrun, hsum⟩ := ih _ { st with bFrame := readOffset P b st.bFrame }
        hb'
      exact ⟨st', hrun, by rw [hsum]; rfl⟩
    · rw [outerLoop.eq_def]
      exact ⟨st, by simp [hb], rfl⟩

/-- C6: when the window constraints admit no candidate pair (a sequence of at most
`min_frame_gap` frames, or `max_frame_gap ≤ min_frame_gap`), the gap search
terminates with the `-1.0` sentinel still in place — the NoCandidateFound condition
(motion.c:369: "min -1.0 is the condition that shows no genuine minimum has been
found yet") — the `compute_motion` trace and improvement events are empty, and the
reported index pair is the deliberate whole-video initialisation
`(0, frameCount - 1)` (motion.c:317-320,343-345), not a value from any candidate. -/
theorem gap_search_no_candidates_sentinel {α : Type} (P : GapParams α)
    (h : P.frameCount ≤ P.minFrameGap ∨ P.maxFrameGap ≤ P.minFrameGap)
    (fuel : Nat) (hf : (P.frameCount - P.minFrameGap).toNat ≤ fuel) (b0 c0 : α) :
    (gapSearch P fuel b0 c0).map searchSummary
      = some (-1, 0, P.frameCount - 1, [], []) := by
  unfold gapSearch
  rcases h with h | h
  · rw [outerLoop.eq_def]
    have hb : ¬ (0 : Int) < P.frameCount - P.minFrameGap := by omega
    simp [hb, searchSummary]
  · have hinner : ∀ b, cEndOf P b ≤ b + P.minFrameGap := by
      intro b; unfold cEndOf; split <;> omega
    obtain ⟨st', hrun, hsum⟩ := outer_no_candidates P
      (P.frameCount - P.minFrameGap) hinner fuel 0 _ (by simpa using hf)
    rw [hrun, Option.map_some', hsum]
    rfl

/-- Witness parameters for C6: a single-frame sequence with `min_frame_gap = 2`. -/
def w6Params : GapParams Int :=
  { mode := "ALL_LOCAL_FRAMES"
    frameCount := 1
    minFrameGap := 2
    maxFrameGap := 30
    w := 1
    h := 1
    read := fun o => some o
    offsetImage := fun x => x
    blur := fun x => x
    score := fun x y => (((x - y).natAbs : ℕ) : ℚ) }

/-- Witness for C6 at the concrete one-frame input. -/
theorem gap_search_no_candidates_sentinel_witness :
    (gapSearch w6Params 3 0 0).map searchSummary
      = some (-1, 0, w6Params.frameCount - 1, [], []) :=
  gap_search_no_candidates_sentinel w6Params (Or.inl (by decide)) 3 (by decide) 0 0

theorem inner_stuck_unknown_mode {α : Type} (P : GapParams α) (bBlur : α)
    (b cEnd : Int) (h1 : P.mode ≠ "ALL_FRAMES") (h2 : P.mode ≠ "ALL_LOCAL_FRAMES") :
    ∀ (fuel : Nat) (c : Int) (st : GapState α), c < cEnd →
      innerLoop P bBlur b cEnd fuel c st = none := by
  intro fuel
  induction fuel with
  | zero =>
    intro c st hc
    rw [innerLoop.eq_def]; simp [hc]
  | succ f ih =>
    intro c st hc
    rw [innerLoop.eq_def]
    simp only [if_pos hc, if_neg h1, if_neg h2]
    exact ih c _ hc

/-- C10: the gap-search phase terminates only for the mode strings `"ALL_FRAMES"`
and `"ALL_LOCAL_FRAMES"`.  For every other mode string, as soon as the window admits
a candidate pair (`b_end > 0` and a non-empty inner range at `b = 0`), neither
branch of the inner dispatch runs, `c_idx` is never advanced, and the search
exhausts any amount of fuel without terminating. -/
theorem gap_search_diverges_on_unknown_mode {α : Type} (P : GapParams α)
    (h1 : P.mode ≠ "ALL_FRAMES") (h2 : P.mode ≠ "ALL_LOCAL_FRAMES")
    (hb : 0 < P.frameCount - P.minFrameGap)
    (hc : P.minFrameGap < cEndOf P 0)
    (fuel : Nat) (b0 c0 : α) :
    gapSearch P fuel b0 c0 = none := by
  unfold gapSearch
  rw [outerLoop.eq_def]
  simp only [if_pos hb]
  cases fuel with
  | zero => rfl
  | succ f =>
    simp only
    rw [inner_stuck_unknown_mode P _ 0 (cEndOf P 0) h1 h2 f (0 + P.minFrameGap) _
      (by omega)]

/-- Witness parameters for C10: the mode string "SUBSEQUENT_FRAMES" (mentioned at
motion.c:284), three frames, gaps 1 and 2, so the window admits the pair (0, 1). -/
def w10Params : GapParams Int :=
  { mode := "SUBSEQUENT_FRAMES"
    frameCount := 3
    minFrameGap := 1
    maxFrameGap := 2
    w := 1
    h := 1
    read := fun o => some o
    offsetImage := fun x => x
    blur := fun x => x
    score := fun x y => (((x - y).natAbs : ℕ) : ℚ) }

/-- Witness for C10: with 7 units of fuel the search still has not terminated. -/
theorem gap_search_diverges_on_unknown_mode_witness :
    gapSearch w10Params 7 0 0 = none :=
  gap_search_diverges_on_unknown_mode w10Params (by decide) (by decide) (by decide)
    (by decide) 7 0 0

theorem inner_pairs_read_indep {α : Type} (P Q : GapParams α) (hm : Q.mode = P.mode)
    (bBlurP bBlurQ : α) (b cEnd : Int) :
    ∀ (fuel : Nat) (c : Int) (stP stQ : GapState α),
      visitedPairs stQ = visitedPairs stP →
      (innerLoop Q bBlurQ b cEnd fuel c stQ).map visitedPairs
        = (innerLoop P bBlurP b cEnd fuel c stP).map visitedPairs := by
  intro fuel
  induction fuel with
  | zero =>
    intro c stP stQ hp
    rw [innerLoop.eq_def]
    rw [innerLoop.eq_def]
    by_cases hc : c < cEnd
    · simp [hc]
    · simp [hc, hp]
  | succ f ih =>
    intro c stP stQ hp
    rw [innerLoop.eq_def]
    rw [innerLoop.eq_def]
    by_cases hc : c < cEnd
    · simp only [if_pos hc, hm]
      have hp' : List.map (fun v => (v.1, v.2.1)) stQ.visited
          = List.map (fun v => (v.1, v.2.1)) stP.visited := hp
      by_cases h1 : P.mode = "ALL_FRAMES"
      · simp only [if_pos h1]
        exact ih _ _ _ (by unfold visitedPairs; simp [hp'])
      · simp only [if_neg h1]
        by_cases h2 : P.mode = "ALL_LOCAL_FRAMES"
        · simp only [if_pos h2]
          exact ih _ _ _ (by unfold visitedPairs; simp [hp'])
        · simp only [if_neg h2]
          exact ih _ _ _ (by unfold visitedPairs; simp [hp'])
    · simp [hc, hp]

theorem outer_pairs_read_indep {α : Type} (P Q : GapParams α) (hm : Q.mode = P.mode)
    (hmin : Q.minFrameGap = P.minFrameGap) (hmax : Q.maxFrameGap = P.maxFrameGap)
    (hN : Q.frameCount = P.frameCount) (bEnd : Int) :
    ∀ (fuel : Nat) (b : Int) (stP stQ : GapState α),
      visitedPairs stQ = visitedPairs stP →
      (outerLoop Q bEnd fuel b stQ).map visitedPairs
        = (outerLoop P bEnd fuel b stP).map visitedPairs := by
  intro fuel
  induction fuel with
  | zero =>
    intro b stP stQ hp
    rw [outerLoop.eq_def]
    rw [outerLoop.eq_def]
    by_cases hb : b < bEnd
    · simp [hb]
    · simp [hb, hp]
  | succ f ih =>
    intro b stP stQ hp
    rw [outerLoop.eq_def]
    rw [outerLoop.eq_def]
    by_cases hb : b < bEnd
    · simp only [if_pos hb]
      have hce : cEndOf Q b = cEndOf P b := by
        unfold cEndOf; rw [hmax, hN]
      rw [hce, hmin]
      have hinner := inner_pairs_read_indep P Q hm
        (P.blur (readOffset P b stP.bFrame)) (Q.blur (readOffset Q b stQ.bFrame))
        b (cEndOf P b) f (b + P.minFrameGap)
        { stP with bFrame := readOffset P b stP.bFrame }
        { stQ with bFrame := readOffset Q b stQ.bFrame }
        (by simpa [visitedPairs] using hp)
      cases hP : innerLoop P (P.blur (readOffset P b stP.bFrame)) b (cEndOf P b) f
          (b + P.minFrameGap) { stP with bFrame := readOffset P b stP.bFrame } with
      | none =>
        rw [hP] at hinner
        simp only [Option.map_none'] at hinner
        rw [Option.map_eq_none'] at hinner
        rw [hinner]
      | some stP1 =>
        rw [hP] at hinner
        simp only [Option.map_some'] at hinner
        rw [Option.map_eq_some'] at hinner
        obtain ⟨stQ1, hQ1, hvq⟩ := hinner
        rw [hQ1]
        simp only
        rw [hm]
        exact ih _ _ _ hvq
    · simp [hb, hp]

/-- C5 as amended: read/seek failures during the gap-search scan are ignored
(motion.c:350,363 discard the `read_noref_frame` return value): replacing the frame
reader by any other — including one that always fails — changes neither whether the
scan terminates nor which index pairs are scanned, and a final SearchResult is still
produced whenever the original scan produces one. -/
theorem gap_scan_result_independent_of_read_errors {α : Type} (P : GapParams α)
    (read2 : Int → Option α) (fuel : Nat) (b0 c0 : α) :
    (gapSearch { P with read := read2 } fuel b0 c0).map visitedPairs
      = (gapSearch P fuel b0 c0).map visitedPairs := by
  unfold gapSearch
  exact outer_pairs_read_indep P { P with read := read2 } rfl rfl rfl rfl
    (P.frameCount - P.minFrameGap) fuel 0 _ _ rfl

/-- Counterexample parameters for C5: a two-frame scan whose every read/seek fails. -/
def c5Params : GapParams Int :=
  { mode := "ALL_LOCAL_FRAMES"
    frameCount := 2
    minFrameGap := 1
    maxFrameGap := 2
    w := 1
    h := 1
    read := fun _ => none
    offsetImage := fun x => x
    blur := fun x => x
    score := fun x y => (((x - y).natAbs : ℕ) : ℚ) }

/-- Counterexample to C5 as stated: with a frame source whose every read and seek
returns an error, the gap-search scan does not abort — it runs to completion and
produces a final SearchResult (state), because motion.c:350,363 ignore the
`read_noref_frame` return value; no error is propagated. -/
theorem gap_scan_read_error_still_produces_result :
    c5Params.read (seekOffset 1 1 0) = none
    ∧ (gapSearch c5Params 4 0 0).isSome = true := by
  decide

/-- The blurred plane of frame `i` when every read succeeds and delivers `F` at the
requested seek offset: read, offset by the pixel offset, blur. -/
def blurredFrameAt {α : Type} (P : GapParams α) (F : Int → α) (i : Int) : α :=
  P.blur (P.offsetImage (F (seekOffset P.w P.h i)))

/-- Score of the candidate pair `(b, c)` when every read succeeds. -/
def pairScore {α : Type} (P : GapParams α) (F : Int → α) (b c : Int) : ℚ :=
  P.score (blurredFrameAt P F b) (blurredFrameAt P F c)

theorem readOffset_of_read_ok {α : Type} (P : GapParams α) (F : Int → α)
    (hread : ∀ o, P.read o = some (F o)) (i : Int) (cur : α) :
    readOffset P i cur = P.offsetImage (F (seekOffset P.w P.h i)) := by
  unfold readOffset; rw [hread]; rfl

theorem inner_scores_ok {α : Type} (P : GapParams α) (F : Int → α)
    (hread : ∀ o, P.read o = some (F o)) (b cEnd : Int) :
    ∀ (fuel : Nat) (c : Int) (st st' : GapState α),
      innerLoop P (blurredFrameAt P F b) b cEnd fuel c st = some st' →
      (∀ v ∈ st.visited, v.2.2 = pairScore P F v.1 v.2.1) →
      ∀ v ∈ st'.visited, v.2.2 = pairScore P F v.1 v.2.1 := by
  intro fuel
  induction fuel with
  | zero =>
    intro c st st' h hok
    rw [innerLoop.eq_def] at h
    by_cases hc : c < cEnd
    · simp [hc] at h
    · simp only [if_neg hc, Option.some_inj] at h
      subst h; exact hok
  | succ f ih =>
    intro c st st' h hok
    rw [innerLoop.eq_def] at h
    by_cases hc : c < cEnd
    · simp only [if_pos hc] at h
      have hok1 : ∀ v ∈ st.visited
            ++ [(b, c, P.score (blurredFrameAt P F b)
                  (P.blur (readOffset P c st.cFrame)))],
          v.2.2 = pairScore P F v.1 v.2.1 := by
        intro v hv
        rcases List.mem_append.mp hv with hv | hv
        · exact hok v hv
        · rw [List.mem_singleton] at hv
          subst hv
          rw [readOffset_of_read_ok P F hread]
          rfl
      split_ifs at h with h1 h2
      · exact ih _ _ _ h (by simpa using hok1)
      · exact ih _ _ _ h (by simpa using hok1)
      · exact ih _ _ _ h (by simpa using hok1)
    · simp only [if_neg hc, Option.some_inj] at h
      subst h; exact hok

theorem outer_scores_ok {α : Type} (P : GapParams α) (F : Int → α)
    (hread : ∀ o, P.read o = some (F o)) (bEnd : Int) :
    ∀ (fuel : Nat) (b : Int) (st st' : GapState α),
      outerLoop P bEnd fuel b st = some st' →
      (∀ v ∈ st.visited, v.2.2 = pairScore P F v.1 v.2.1) →
      ∀ v ∈ st'.visited, v.2.2 = pairScore P F v.1 v.2.1 := by
  intro fuel
  induction fuel with
  | zero =>
    intro b st st' h hok
    rw [outerLoop.eq_def] at h
    by_cases hb : b < bEnd
    · simp [hb] at h
    · simp only [if_neg hb, Option.some_inj] at h
      subst h; exact hok
  | succ f ih =>
    intro b st st' h hok
    rw [outerLoop.eq_def] at h
    by_cases hb : b < bEnd
    · simp only [if_pos hb] at h
      rw [readOffset_of_read_ok P F hread] at h
      cases hin : innerLoop P (P.blur (P.offsetImage (F (seekOffset P.w P.h b)))) b
          (cEndOf P b) f (b + P.minFrameGap)
          { st with bFrame := P.offsetImage (F (seekOffset P.w P.h b)) } with
      | none => rw [hin] at h; simp at h
      | some st1 =>
        rw [hin] at h
        simp only at h
        exact ih _ _ _ h (inner_scores_ok P F hread b (cEndOf P b) f _ _ _ hin hok)
    · simp only [if_neg hb, Option.some_inj] at h
      subst h; exact hok

theorem gapSearch_scores_ok {α : Type} (P : GapParams α) (F : Int → α)
    (hread : ∀ o, P.read o = some (F o)) (fuel : Nat) (b0 c0 : α)
    (st : GapState α) (h : gapSearch P fuel b0 c0 = some st) :
    ∀ v ∈ st.visited, v.2.2 = pairScore P F v.1 v.2.1 := by
  unfold gapSearch at h
  refine outer_scores_ok P F hread _ fuel 0 _ _ h ?_
  intro v hv
  simp at hv

theorem inner_complete_local {α : Type} (P : GapParams α)
    (hmode : P.mode = "ALL_LOCAL_FRAMES") (bBlur : α) (b cEnd : Int) :
    ∀ (fuel : Nat) (c : Int) (st st' : GapState α),
      innerLoop P bBlur b cEnd fuel c st = some st' →
      ∀ x : Int, c ≤ x → x < cEnd → ∃ s, (b, x, s) ∈ st'.visited := by
  have h1 : ¬ P.mode = "ALL_FRAMES" := by rw [hmode]; decide
  intro fuel
  induction fuel with
  | zero =>
    intro c st st' h x hcx hxe
    rw [innerLoop.eq_def] at h
    by_cases hc : c < cEnd
    · simp [hc] at h
    · omega
  | succ f ih =>
    intro c st st' h x hcx hxe
    rw [innerLoop.eq_def] at h
    by_cases hc : c < cEnd
    · simp only [if_pos hc, if_neg h1, if_pos hmode] at h
      by_cases hxc : x = c
      · subst hxc
        obtain ⟨t, ht⟩ := inner_visited_mono P bBlur b cEnd f _ _ _ h
        refine ⟨P.score bBlur (P.blur (readOffset P x st.cFrame)), ?_⟩
        rw [ht]
        simp
      · exact ih _ _ _ h x (by omega) hxe
    · omega

theorem outer_complete_local {α : Type} (P : GapParams α)
    (hmode : P.mode = "ALL_LOCAL_FRAMES") (bEnd : Int) :
    ∀ (fuel : Nat) (b : Int) (st st' : GapState α),
      outerLoop P bEnd fuel b st = some st' →
      ∀ x : Int, b ≤ x → x < bEnd →
        ∀ y : Int, x + P.minFrameGap ≤ y → y < cEndOf P x →
          ∃ s, (x, y, s) ∈ st'.visited := by
  have h1 : ¬ P.mode = "ALL_FRAMES" := by rw [hmode]; decide
  intro fuel
  induction fuel with
  | zero =>
    intro b st st' h x hbx hxe y hy1 hy2
    rw [outerLoop.eq_def] at h
    by_cases hb : b < bEnd
    · simp [hb] at h
    · omega
  | succ f ih =>
    intro b st st' h x hbx hxe y hy1 hy2
    rw [outerLoop.eq_def] at h
    by_cases hb : b < bEnd
    · simp only [if_pos hb, if_neg h1] at h
      cases hin : innerLoop P (P.blur (readOffset P b st.bFrame)) b (cEndOf P b) f
          (b + P.minFrameGap) { st with bFrame := readOffset P b st.bFrame } with
      | none => rw [hin] at h; simp at h
      | some st1 =>
        rw [hin] at h
        simp only at h
        by_cases hxb : x = b
        · subst hxb
          obtain ⟨s, hs⟩ := inner_complete_local P hmode _ x (cEndOf P x) f _ _ _
            hin y hy1 hy2
          obtain ⟨t, ht⟩ := outer_visited_mono P bEnd f _ _ _ h
          exact ⟨s, by rw [ht]; exact List.mem_append_left _ hs⟩
        · exact ih _ _ _ h x (by omega) hxe y hy1 hy2
    · omega

theorem inner_visits_nonempty {α : Type} (P : GapParams α) (bBlur : α)
    (b cEnd : Int) (fuel : Nat) (c : Int) (st st' : GapState α) (hc : c < cEnd)
    (h : innerLoop P bBlur b cEnd fuel c st = some st') : st'.visited ≠ [] := by
  rw [innerLoop.eq_def] at h
  simp only [if_pos hc] at h
  cases fuel with
  | zero => simp at h
  | succ f =>
    simp only at h
    split_ifs at h with h1 h2
    · obtain ⟨t, ht⟩ := inner_visited_mono P bBlur b cEnd f _ _ _ h
      rw [ht]; simp
    · obtain ⟨t, ht⟩ := inner_visited_mono P bBlur b cEnd f _ _ _ h
      rw [ht]; simp
    · obtain ⟨t, ht⟩ := inner_visited_mono P bBlur b cEnd f _ _ _ h
      rw [ht]; simp

theorem outer_visits_nonempty {α : Type} (P : GapParams α) (bEnd : Int)
    (fuel : Nat) (b : Int) (st st' : GapState α) (hb : b < bEnd)
    (hc : b + P.minFrameGap < cEndOf P b)
    (h : outerLoop P bEnd fuel b st = some st') : st'.visited ≠ [] := by
  rw [outerLoop.eq_def] at h
  simp only [if_pos hb] at h
  cases fuel with
  | zero => simp at h
  | succ f =>
    simp only at h
    cases hin : innerLoop P (P.blur (readOffset P b st.bFrame)) b (cEndOf P b) f
        (b + P.minFrameGap) { st with bFrame := readOffset P b st.bFrame } with
    | none => rw [hin] at h; simp at h
    | some st1 =>
      rw [hin] at h
      simp only at h
      have hne := inner_visits_nonempty P _ b (cEndOf P b) f _ _ _ hc hin
      obtain ⟨t2, ht2⟩ := outer_visited_mono P bEnd f _ _ _ h
      rw [ht2]
      intro hcontra
      exact hne (List.append_eq_nil.mp hcontra).1

theorem gapSearch_first_visit {α : Type} (P : GapParams α)
    (hb : 0 < P.frameCount - P.minFrameGap) (hc : P.minFrameGap < cEndOf P 0)
    (fuel : Nat) (b0 c0 : α) (st : GapState α)
    (h : gapSearch P fuel b0 c0 = some st) : st.visited ≠ [] := by
  unfold gapSearch at h
  exact outer_visits_nonempty P _ fuel 0 _ st hb (by omega) h

/-- C9: on the same input (same frame counts, gap bounds, dimensions, frame source
and kernels, every read succeeding and scores nonnegative as the SAD kernels
produce), the best score of the `"ALL_FRAMES"` search (both loop indices advancing
by 4) is at least the best score of the `"ALL_LOCAL_FRAMES"` exhaustive search
(both advancing by 1): the coarse scan's candidate pairs are a subset of the
exhaustive scan's. -/
theorem stride4_best_score_ge_exhaustive {α : Type} (P4 P1 : GapParams α)
    (hm4 : P4.mode = "ALL_FRAMES") (hm1 : P1.mode = "ALL_LOCAL_FRAMES")
    (hN : P1.frameCount = P4.frameCount)
    (hmin : P1.minFrameGap = P4.minFrameGap)
    (hmax : P1.maxFrameGap = P4.maxFrameGap)
    (hw : P1.w = P4.w) (hh : P1.h = P4.h)
    (hrd : P1.read = P4.read) (hoff : P1.offsetImage = P4.offsetImage)
    (hbl : P1.blur = P4.blur) (hsc : P1.score = P4.score)
    (F : Int → α) (hread : ∀ o, P4.read o = some (F o))
    (hs : ∀ x y, 0 ≤ P4.score x y)
    (fuel4 fuel1 : Nat) (b0 c0 b1 c1 : α) (st4 st1 : GapState α)
    (r4 : gapSearch P4 fuel4 b0 c0 = some st4)
    (r1 : gapSearch P1 fuel1 b1 c1 = some st1) :
    st1.min ≤ st4.min := by
  have hread1 : ∀ o, P1.read o = some (F o) := fun o => by rw [hrd]; exact hread o
  have hs1 : ∀ x y, 0 ≤ P1.score x y := fun x y => by rw [hsc]; exact hs x y
  have hce : ∀ x, cEndOf P1 x = cEndOf P4 x := fun x => by
    unfold cEndOf; rw [hmax, hN]
  have hps : ∀ b c, pairScore P1 F b c = pairScore P4 F b c := fun b c => by
    unfold pairScore blurredFrameAt
    rw [hsc, hbl, hoff, hw, hh]
  have r4' := r4
  have r1' := r1
  unfold gapSearch at r4' r1'
  have inv4 := outer_searchBestInv P4 _ (Or.inl hm4) hs fuel4 0 _ st4 r4'
    (Or.inl ⟨rfl, rfl, rfl⟩)
  have inv1 := outer_searchBestInv P1 _ (Or.inr hm1) hs1 fuel1 0 _ st1 r1'
    (Or.inl ⟨rfl, rfl, rfl⟩)
  have sc4 := gapSearch_scores_ok P4 F hread fuel4 b0 c0 st4 r4
  have sc1 := gapSearch_scores_ok P1 F hread1 fuel1 b1 c1 st1 r1
  rcases inv4 with ⟨hsent4, hv4, -⟩ | ⟨h04, hlb4, hfind4, -, -, -⟩
  · rcases inv1 with ⟨hsent1, -, -⟩ | ⟨h01, hlb1, hfind1, -, -, -⟩
    · rw [hsent1, hsent4]
    · exfalso
      have hmem := List.mem_of_find?_eq_some hfind1
      rcases outer_visited_sound P1 (P1.frameCount - P1.minFrameGap) fuel1 0
          _ st1 le_rfl r1' _ hmem with hin | ⟨hb0, hb1, hc1lo, hc1hi⟩
      · simp at hin
      · have hb0' : 0 ≤ st1.minLowerIdx := hb0
        have hb1x : st1.minLowerIdx < P1.frameCount - P1.minFrameGap := hb1
        have hcloX : st1.minLowerIdx + P1.minFrameGap ≤ st1.minUpperIdx := hc1lo
        have hchiX : st1.minUpperIdx < cEndOf P1 st1.minLowerIdx := hc1hi
        rw [hN, hmin] at hb1x
        rw [hmin] at hcloX
        rw [hce] at hchiX
        have hc4a : st1.minUpperIdx < st1.minLowerIdx + P4.maxFrameGap := by
          have hx := hchiX; unfold cEndOf at hx; split at hx <;> omega
        have hc4b : st1.minUpperIdx < P4.frameCount := by
          have hx := hchiX; unfold cEndOf at hx; split at hx <;> omega
        have hbX : 0 < P4.frameCount - P4.minFrameGap := by omega
        have hcX : P4.minFrameGap < cEndOf P4 0 := by
          unfold cEndOf; split <;> omega
        exact (gapSearch_first_visit P4 hbX hcX fuel4 b0 c0 st4 r4) hv4
  · have hmem4 := List.mem_of_find?_eq_some hfind4
    have hs4eq : st4.min = pairScore P4 F st4.minLowerIdx st4.minUpperIdx :=
      sc4 _ hmem4
    rcases outer_visited_sound P4 (P4.frameCount - P4.minFrameGap) fuel4 0
        _ st4 le_rfl r4' _ hmem4 with hin | ⟨hb0, hb1, hclo, hchi⟩
    · simp at hin
    · have hb0' : 0 ≤ st4.minLowerIdx := hb0
      have hb1' : st4.minLowerIdx < P4.frameCount - P4.minFrameGap := hb1
      have hclo' : st4.minLowerIdx + P4.minFrameGap ≤ st4.minUpperIdx := hclo
      have hchi' : st4.minUpperIdx < cEndOf P4 st4.minLowerIdx := hchi
      obtain ⟨s, hsmem⟩ := outer_complete_local P1 hm1
        (P1.frameCount - P1.minFrameGap) fuel1 0 _ st1 r1'
        st4.minLowerIdx hb0' (by rw [hN, hmin]; exact hb1')
        st4.minUpperIdx (by rw [hmin]; exact hclo')
        (by rw [hce]; exact hchi')
      have hseq : s = pairScore P1 F st4.minLowerIdx st4.minUpperIdx := sc1 _ hsmem
      rcases inv1 with ⟨-, hv1, -⟩ | ⟨-, hlb1, -, -, -, -⟩
      · rw [hv1] at hsmem; simp at hsmem
      · have hlb : st1.min ≤ s := hlb1 _ hsmem
        rw [hseq, hps] at hlb
        rw [hs4eq]
        exact hlb

/-- Witness parameters for C9, coarse variant: three frames, gaps 1 and 15. -/
def w9Params4 : GapParams Int :=
  { mode := "ALL_FRAMES"
    frameCount := 3
    minFrameGap := 1
    maxFrameGap := 15
    w := 1
    h := 1
    read := fun o => some o
    offsetImage := fun x => x
    blur := fun x => x
    score := fun x y => (((x - y).natAbs : ℕ) : ℚ) }

/-- Witness parameters for C9, exhaustive variant: same input, stride-1 mode. -/
def w9Params1 : GapParams Int :=
  { w9Params4 with mode := "ALL_LOCAL_FRAMES" }

/-- Final state of `gapSearch w9Params4 9 0 0`. -/
def w9State4 : GapState Int :=
  { min := 1
    minLowerIdx := 0
    minUpperIdx := 1
    bFrame := 0
    cFrame := 1
    visited := [(0, 1, 1)]
    events := [(1, 0, 1)] }

/-- Final state of `gapSearch w9Params1 9 0 0`. -/
def w9State1 : GapState Int :=
  { min := 1
    minLowerIdx := 0
    minUpperIdx := 1
    bFrame := 1
    cFrame := 3
    visited := [(0, 1, 1), (0, 2, 3), (1, 2, 2)]
    events := [(1, 0, 1)] }

/-- Witness for C9 at the concrete three-frame input. -/
theorem stride4_best_score_ge_exhaustive_witness :
    w9State1.min ≤ w9State4.min :=
  stride4_best_score_ge_exhaustive w9Params4 w9Params1 rfl rfl rfl rfl rfl rfl rfl
    rfl rfl rfl rfl (fun o => (o : Int)) (fun o => rfl) (fun x y => Nat.cast_nonneg _)
    9 9 0 0 0 0 w9State4 w9State1 (by decide) (by decide)
